import Mathlib

/-!
Verification development for the personal digital assistant's intent-resolution
and dispatch core.  The Python source is shallowly embedded: pure string and
list manipulation is translated directly, while calls into external libraries
(`json.loads`, the markdown-fence regex, `requests`, module methods, the chat
LLM) are modelled as explicit oracle parameters, so that every theorem
quantifies over all possible behaviours of those externals.
-/

set_option autoImplicit false

namespace PDA

/-- Python JSON values, the codomain of `json.loads`.  Numbers are collapsed to
`Int`; the distinction never influences the embedded control flow. -/
inductive PyJson where
  | null
  | bool (b : Bool)
  | num (n : Int)
  | str (s : String)
  | arr (l : List PyJson)
  | obj (o : List (String × PyJson))

/-- Characters removed by Python's `str.strip()` (ASCII whitespace). -/
def isPySpace (c : Char) : Bool :=
  c = ' ' || c = '\t' || c = '\n' || c = '\r' || c = '\x0b' || c = '\x0c'

/-- Python `str.strip()`. -/
def pyStrip (s : String) : String :=
  String.mk (((s.data.dropWhile isPySpace).reverse.dropWhile isPySpace).reverse)

/-- Python `str.find(c)`: index of the first occurrence, `none` for -1. -/
def pyFind (s : String) (c : Char) : Option Nat :=
  List.findIdx? (fun x => x = c) s.data

/-- Python `str.rfind(c)`: index of the last occurrence, `none` for -1. -/
def pyRfind (s : String) (c : Char) : Option Nat :=
  match List.findIdx? (fun x => x = c) s.data.reverse with
  | some k => some (s.data.length - 1 - k)
  | none => none

/-- Python slice `s[i:j]`. -/
def pySlice (s : String) (i j : Nat) : String :=
  String.mk ((s.data.drop i).take (j - i))

/-- `segHere hay needle`: the character list `needle` occurs at the head of
`hay`. -/
def segHere : List Char → List Char → Bool
  | _, [] => true
  | [], _ :: _ => false
  | h :: t, n :: m => (h = n) && segHere t m

/-- `segIn needle hay`: the character list `needle` occurs contiguously
somewhere in `hay`. -/
def segIn (needle : List Char) : List Char → Bool
  | [] => needle.isEmpty
  | h :: t => segHere (h :: t) needle || segIn needle t

/-- Python substring test `needle in hay`. -/
def pyContains (hay needle : String) : Bool :=
  segIn needle.data hay.data

/-- The string that `_extract_json_from_response` hands to `json.loads` first:
the stripped raw text, replaced by the stripped inner content of a fenced
markdown block when the fence regex (oracle `F`, applied to the stripped
text) matches. -/
def mdTarget (F : String → Option String) (raw : String) : String :=
  match F (pyStrip raw) with
  | some inner => pyStrip inner
  | none => pyStrip raw

/-- Shape handling shared by the direct-parse and bracket-substring parse
sites: a bare object is wrapped into a one-element list, a list is returned
as-is, anything else (including a parse failure) yields the empty list. -/
def coerceParsed : Option PyJson → List PyJson
  | some (PyJson.obj o) => [PyJson.obj o]
  | some (PyJson.arr l) => l
  | _ => []

/-- The final salvage attempt when no plausible array boundaries exist: the
original stripped text is re-parsed and only a bare object is accepted. -/
def rawObjectFallback (J : String → Option PyJson) (raw : String) : List PyJson :=
  match J (pyStrip raw) with
  | some (PyJson.obj o) => [PyJson.obj o]
  | _ => []

/-- Embedding of `LLMClient._extract_json_from_response`
(src/llm/llm_client.py).  `J` is the `json.loads` oracle (`none` models
`JSONDecodeError`), `F` the markdown-fence regex oracle (group 1 of the
match, if any). -/
def extract_json_from_response (J : String → Option PyJson)
    (F : String → Option String) (raw : String) : List PyJson :=
  let s1 := mdTarget F raw
  match J s1 with
  | some v => coerceParsed (some v)
  | none =>
    match pyFind s1 '[' , pyRfind s1 ']' with
    | some i, some j =>
      if i < j then coerceParsed (J (pySlice s1 i (j + 1)))
      else rawObjectFallback J raw
    | _, _ => rawObjectFallback J raw

/-- Embedding of `LLMClient._validate_intents_schema`: `true` when every
element is a dict containing an `action` key (the source raises `ValueError`
otherwise; callers catch it, so a Bool faithfully models the branch). -/
def validate_intents_schema (l : List PyJson) : Bool :=
  l.all fun x =>
    match x with
    | PyJson.obj o => (o.lookup "action").isSome
    | _ => false

/-- Novita's post-extraction check: empty result, non-dict first element, or a
first element whose `action` is missing or JSON `null` (Python `None`). -/
def novitaHeadBad (l : List PyJson) : Bool :=
  match l with
  | [] => true
  | x :: _ =>
    match x with
    | PyJson.obj o =>
      match o.lookup "action" with
      | none => true
      | some PyJson.null => true
      | some _ => false
    | _ => true

/-- Embedding of `AwanLLMClient.parse_intents` after the HTTP exchange.  The
`transport` oracle stands for `requests.post`, `raise_for_status` and the
extraction of `res.json()["choices"][0]["message"]["content"]`; any exception
in that region is the `error` case, landing in the `except` handlers which
all return `[{"action": "None"}]`. -/
def awan_parse_intents (J : String → Option PyJson) (F : String → Option String)
    (transport : Except Unit String) : List PyJson :=
  match transport with
  | Except.error _ => [PyJson.obj [("action", PyJson.str "None")]]
  | Except.ok raw =>
    let parsed := extract_json_from_response J F raw
    if parsed.isEmpty then [PyJson.obj [("action", PyJson.str "none")]]
    else if validate_intents_schema parsed then parsed
    else [PyJson.obj [("action", PyJson.str "None")]]

/-- Embedding of `NovitaLLMClient.parse_intents` after the HTTP exchange. -/
def novita_parse_intents (J : String → Option PyJson) (F : String → Option String)
    (transport : Except Unit String) : List PyJson :=
  match transport with
  | Except.error _ => [PyJson.obj [("action", PyJson.str "None")]]
  | Except.ok raw =>
    let parsed := extract_json_from_response J F raw
    if novitaHeadBad parsed then [PyJson.obj [("action", PyJson.str "None")]]
    else parsed

/-- Embedding of `AwanLLMClient.generate_response` after the HTTP exchange:
on success the assistant's text is stripped and returned, on any exception a
fixed apology string is returned. -/
def awan_generate_response (transport : Except Unit String) : String :=
  match transport with
  | Except.ok raw => pyStrip raw
  | Except.error _ => "I apologize, but I'm having trouble generating a response right now."

/-- Embedding of `NovitaLLMClient.generate_response` after the HTTP exchange. -/
def novita_generate_response (transport : Except Unit String) : String :=
  match transport with
  | Except.ok raw => pyStrip raw
  | Except.error _ => "I apologize, but I'm having trouble generating a response right now."

/-- The `details` dict each module's `get_supported_actions` supplies per
action name. -/
structure ActionDetails where
  method_name : String
  description : String
  example_json : String
deriving DecidableEq, Repr

/-- One loaded automation module: `moduleId` stands for the Python object
identity of the instantiated class, `description` for `get_description()`,
`actions` for the (insertion-ordered) `get_supported_actions()` dict. -/
structure ModuleSpec where
  moduleId : Nat
  description : String
  actions : List (String × ActionDetails)
deriving DecidableEq, Repr

/-- One value of `supported_actions_map`: the tuple
`(module_instance, method_name, description, example_json)`. -/
structure RegEntry where
  moduleId : Nat
  method_name : String
  description : String
  example_json : String
deriving DecidableEq, Repr

/-- Python dict assignment `m[k] = v`: replaces the value in place when the
key is present (insertion order preserved), appends otherwise. -/
def dictInsert (m : List (String × RegEntry)) (k : String) (v : RegEntry) :
    List (String × RegEntry) :=
  if (m.lookup k).isSome then
    m.map fun p => if p.1 = k then (k, v) else p
  else m ++ [(k, v)]

/-- The inner registration loop of `load_automation_modules`: every action of
a loaded module is written into `supported_actions_map` (the duplicate check
only prints a warning; the assignment runs unconditionally). -/
def registerModuleActions (reg : List (String × RegEntry)) (m : ModuleSpec) :
    List (String × RegEntry) :=
  m.actions.foldl
    (fun r p => dictInsert r p.1 ⟨m.moduleId, p.2.method_name, p.2.description, p.2.example_json⟩)
    reg

/-- Embedding of `Backend.load_automation_modules` (src/core/backend.py).
Each configured module path's import/instantiation is an oracle outcome:
`error` models any exception (caught and logged, loop continues), `ok` the
module instance found.  Returns (`automation_modules`,
`supported_actions_map`). -/
def load_automation_modules (loads : List (Except Unit ModuleSpec)) :
    List ModuleSpec × List (String × RegEntry) :=
  loads.foldl
    (fun acc l =>
      match l with
      | Except.error _ => acc
      | Except.ok m => (acc.1 ++ [m], registerModuleActions acc.2 m))
    ([], [])

/-- A parsed intent: the `action` value and the remaining key/value fields of
the JSON object.  Claims about the dispatcher quantify over intents whose
`action` is a string, which is what this type captures. -/
structure Intent where
  action : String
  params : List (String × String)
deriving DecidableEq, Repr

/-- `kwargs = {k: v for k, v in it.items() if k not in ["action"]}`. -/
def kwargsOf (it : Intent) : List (String × String) :=
  it.params.filter fun p => ¬(p.1 = "action")

/-- Outcome of calling a bound module method: a returned string, a
`TypeError` (argument mismatch), or any other exception. -/
inductive ExecOutcome where
  | ok (result : String)
  | typeError
  | exn
deriving DecidableEq, Repr

/-- Oracle for module method behaviour: module identity, method name and
keyword arguments determine the outcome. -/
abbrev RunOracle := Nat → String → List (String × String) → ExecOutcome

/-- A dispatched method call, recorded for the instrumented semantics:
(module identity, method name, keyword arguments). -/
abbrev Call := Nat × String × List (String × String)

/-- Python `act.replace('_', ' ')`: for single-character pattern and
replacement this is exactly a character-wise map. -/
def pyReplace (s : String) (a b : Char) : String :=
  String.mk (s.data.map fun c => if c = a then b else c)

/-- `f"Sorry, I don't know how to '{act.replace('_', ' ')}'."` -/
def unknownActionMsg (act : String) : String :=
  "Sorry, I don't know how to '" ++ pyReplace act '_' ' ' ++ "'."

/-- The `TypeError` handler's response string. -/
def typeErrorMsg (act : String) : String :=
  "Sorry, I had trouble executing the command. Missing or incorrect arguments for '"
    ++ pyReplace act '_' ' ' ++ "'."

/-- The generic exception handler's response string. -/
def execErrorMsg (act : String) : String :=
  "Sorry, I encountered an error while trying to '" ++ pyReplace act '_' ' ' ++ "'."

/-- The intent-parse failure response string. -/
def parseFailMsg : String :=
  "Sorry, I didn't understand. Did you want me to run a command or chat?"

/-- Result of the core dispatch loop: either the loop ran off the end of the
intent list (`done`, carrying `results`, `action_executed` and the call
trace) or a `return` statement ended the turn early (`early`). -/
inductive LoopOut where
  | done (results : List String) (action_executed : Bool) (calls : List Call)
  | early (response : String) (calls : List Call)
deriving DecidableEq, Repr

/-- Embedding of the `for it in intents` loop of `Backend.process_command`
(src/core/backend.py, history variant), instrumented with the list of
dispatched calls. -/
def dispatchLoop (reg : List (String × RegEntry)) (run : RunOracle) :
    List Intent → List String → Bool → List Call → LoopOut
  | [], results, ae, calls => LoopOut.done results ae calls
  | it :: rest, results, ae, calls =>
    if it.action = "none" then
      dispatchLoop reg run rest results ae calls
    else
      match reg.lookup it.action with
      | none => LoopOut.early (unknownActionMsg it.action) calls
      | some e =>
        match run e.moduleId e.method_name (kwargsOf it) with
        | ExecOutcome.ok r =>
          dispatchLoop reg run rest (results ++ [r]) true
            (calls ++ [(e.moduleId, e.method_name, kwargsOf it)])
        | ExecOutcome.typeError =>
          LoopOut.early (typeErrorMsg it.action)
            (calls ++ [(e.moduleId, e.method_name, kwargsOf it)])
        | ExecOutcome.exn =>
          LoopOut.early (execErrorMsg it.action)
            (calls ++ [(e.moduleId, e.method_name, kwargsOf it)])

/-- One `{role, content}` conversation-history entry. -/
structure Msg where
  role : String
  content : String
deriving DecidableEq, Repr

/-- Observable outcome of one `process_command` call in the history variant:
the returned string, the conversation history after the call, the module
methods dispatched, and the `generate_response` invocations (prompt and
history argument) made. -/
structure TurnOut where
  response : String
  new_history : List Msg
  module_calls : List Call
  gen_calls : List (String × List Msg)
deriving DecidableEq, Repr

/-- `if self.conversation_history and self.conversation_history[-1]["role"] ==
"user": self.conversation_history.pop()`. -/
def popIfLastUser (h : List Msg) : List Msg :=
  match h.getLast? with
  | some m => if m.role = "user" then h.dropLast else h
  | none => h

/-- Embedding of `Backend.process_command` (src/core/backend.py).  `parsed`
is the outcome of the `parse_intents` call (`error` models any exception);
`gen` is the `generate_response` oracle. -/
def process_command (reg : List (String × RegEntry)) (run : RunOracle)
    (gen : String → List Msg → String) (parsed : Except Unit (List Intent))
    (hist : List Msg) (user_text : String) : TurnOut :=
  let hist1 := hist ++ [⟨"user", user_text⟩]
  match parsed with
  | Except.error _ =>
    { response := parseFailMsg, new_history := popIfLastUser hist1
      module_calls := [], gen_calls := [] }
  | Except.ok intents =>
    match dispatchLoop reg run intents [] false [] with
    | LoopOut.early resp calls =>
      ⟨resp, hist1 ++ [⟨"assistant", resp⟩], calls, []⟩
    | LoopOut.done results ae calls =>
      if results ≠ [] then
        let fr := String.intercalate "\n" results
        ⟨fr, hist1 ++ [⟨"assistant", fr⟩], calls, []⟩
      else if !ae then
        let r := gen user_text hist1
        ⟨r, hist1 ++ [⟨"assistant", r⟩], calls, [(user_text, hist1)]⟩
      else
        let r := "I'm not sure how to respond to that."
        ⟨r, hist1 ++ [⟨"assistant", r⟩], calls, []⟩

/-- Embedding of `Backend.clear_conversation_history`. -/
def clear_conversation_history : List Msg := []

/-- The `last_filename` update block after a successful method call in the
last-filename Backend variant (src/backend.py, lines 163-168): an
`elif`-chain keyed on the action name, guarded by sentinel substrings of the
result text; `kwargs.get("filename")` is `none` when the argument is absent. -/
def update_last_filename (act : String) (kw : List (String × String))
    (result : String) (lf : Option String) : Option String :=
  if act = "create_file" ∧ pyContains result "File created" then kw.lookup "filename"
  else if act = "write_file" ∧ pyContains result "File written" then kw.lookup "filename"
  else if act = "delete_file" ∧ lf = kw.lookup "filename" ∧ pyContains result "File deleted" then none
  else lf

/-- Result of the dispatch loop in the last-filename variant, carrying the
`last_filename` value alongside results and the call trace. -/
inductive FLoopOut where
  | done (results : List String) (lf : Option String) (calls : List Call)
  | early (response : String) (lf : Option String) (calls : List Call)
deriving DecidableEq, Repr

/-- Embedding of the `for it in intents` loop of the last-filename
`Backend.process_command` (src/backend.py), instrumented with the call
trace. -/
def fileDispatchLoop (reg : List (String × RegEntry)) (run : RunOracle) :
    List Intent → List String → Option String → List Call → FLoopOut
  | [], results, lf, calls => FLoopOut.done results lf calls
  | it :: rest, results, lf, calls =>
    if it.action = "none" then
      fileDispatchLoop reg run rest results lf calls
    else
      match reg.lookup it.action with
      | none => FLoopOut.early (unknownActionMsg it.action) lf calls
      | some e =>
        match run e.moduleId e.method_name (kwargsOf it) with
        | ExecOutcome.ok r =>
          fileDispatchLoop reg run rest (results ++ [r])
            (update_last_filename it.action (kwargsOf it) r lf)
            (calls ++ [(e.moduleId, e.method_name, kwargsOf it)])
        | ExecOutcome.typeError =>
          FLoopOut.early (typeErrorMsg it.action) lf
            (calls ++ [(e.moduleId, e.method_name, kwargsOf it)])
        | ExecOutcome.exn =>
          FLoopOut.early (execErrorMsg it.action) lf
            (calls ++ [(e.moduleId, e.method_name, kwargsOf it)])

/-- The `last_filename` carried by either constructor of `FLoopOut`. -/
def floopLf : FLoopOut → Option String
  | FLoopOut.done _ lf _ => lf
  | FLoopOut.early _ lf _ => lf

/-- Python `intent.get(key, default)` for the string-valued fields of this
variant. -/
def getParam (it : Intent) (k : String) (dflt : String) : String :=
  match it.params.lookup k with
  | some v => v
  | none => dflt

/-- Observable outcome of one `process_command` call in the last-filename
variant: returned string, `last_filename` after the call, dispatched module
methods, and the prompts passed to `generate_response`. -/
structure FileTurnOut where
  response : String
  last_filename : Option String
  module_calls : List Call
  gen_calls : List String
deriving DecidableEq, Repr

/-- The tail of the last-filename `process_command`: run the dispatch loop,
then join results with newlines, or fall back to `generate_response(user_text)`
when no result was produced. -/
def fileFinish (reg : List (String × RegEntry)) (run : RunOracle)
    (gen : String → String) (intents : List Intent) (lf : Option String)
    (user_text : String) : FileTurnOut :=
  match fileDispatchLoop reg run intents [] lf [] with
  | FLoopOut.early resp lf2 calls => ⟨resp, lf2, calls, []⟩
  | FLoopOut.done results lf2 calls =>
    if results ≠ [] then ⟨String.intercalate "\n" results, lf2, calls, []⟩
    else ⟨gen user_text, lf2, calls, [user_text]⟩

/-- Embedding of the last-filename `Backend.process_command`
(src/backend.py): the clarify / clarify_file check on the first intent runs
before the dispatch loop and returns the intent's `prompt` field (or a fixed
default) immediately. -/
def file_process_command (reg : List (String × RegEntry)) (run : RunOracle)
    (gen : String → String) (parsed : Except Unit (List Intent))
    (lf : Option String) (user_text : String) : FileTurnOut :=
  match parsed with
  | Except.error _ => ⟨parseFailMsg, lf, [], []⟩
  | Except.ok intents =>
    match intents with
    | [] => fileFinish reg run gen [] lf user_text
    | i0 :: rest =>
      if i0.action = "clarify" then
        ⟨getParam i0 "prompt" "Could you clarify your intent?", lf, [], []⟩
      else if i0.action = "clarify_file" then
        ⟨getParam i0 "prompt" "Which file did you mean? Please specify the filename.", lf, [], []⟩
      else fileFinish reg run gen (i0 :: rest) lf user_text

/-- Every intent in the list is either the reserved `"none"` action or names
a registered action whose bound method call succeeds. -/
def allOk (reg : List (String × RegEntry)) (run : RunOracle) (l : List Intent) : Prop :=
  ∀ it ∈ l, it.action = "none" ∨
    ∃ e s, reg.lookup it.action = some e ∧
      run e.moduleId e.method_name (kwargsOf it) = ExecOutcome.ok s

/-- The (results, calls) accumulated by a fully successful run over a list of
intents: `"none"` intents are skipped, every other intent contributes its
result string and its dispatched call. -/
def okTrace (reg : List (String × RegEntry)) (run : RunOracle) :
    List Intent → List String × List Call
  | [] => ([], [])
  | it :: l =>
    if it.action = "none" then okTrace reg run l
    else
      match reg.lookup it.action with
      | none => okTrace reg run l
      | some e =>
        match run e.moduleId e.method_name (kwargsOf it) with
        | ExecOutcome.ok r =>
          let t := okTrace reg run l
          (r :: t.1, (e.moduleId, e.method_name, kwargsOf it) :: t.2)
        | _ => okTrace reg run l

/-- The call trace carried by either constructor of `LoopOut`. -/
def loopCalls : LoopOut → List Call
  | LoopOut.done _ _ calls => calls
  | LoopOut.early _ calls => calls

/-- A tiny concrete `json.loads` oracle used to evaluate the theorems on
closed inputs. -/
def jsonOracle : String → Option PyJson := fun s =>
  if s = "[1]" then some (PyJson.arr [PyJson.num 1])
  else if s = "ob" then some (PyJson.obj [("a", PyJson.null)])
  else if s = "tx" then some (PyJson.str "t")
  else none

/-- A concrete fence oracle that never finds a markdown block. -/
def fenceOracle : String → Option String := fun _ => none

/-- A concrete one-action registry used by closed witnesses. -/
def regGreet : List (String × RegEntry) :=
  [("greet", ⟨0, "do_greet", "greets", "{}"⟩)]

/-- A concrete run oracle whose every call succeeds with result `"hi"`. -/
def runHi : RunOracle := fun _ _ _ => ExecOutcome.ok "hi"

/-- A concrete chat oracle returning a recognisable constant. -/
def genChat : String → List Msg → String := fun _ _ => "CHAT"

/-- C1: for every raw LLM response, `_extract_json_from_response` behaves as
specified: on the whitespace-stripped text (the fenced block's inner content
when one is present) a direct parse yielding an array is returned as-is and a
bare object is wrapped into a one-element list; when the direct parse fails
and a first `[` precedes a last `]`, that inclusive substring is re-parsed
under the same shape handling; and a parse producing neither object nor
array, or the failure of every strategy, yields the empty list.  The
embedding is a total function, so no input can raise. -/
theorem C1_extract_json_spec (J : String → Option PyJson)
    (F : String → Option String) (raw : String) :
    (∀ l, J (mdTarget F raw) = some (PyJson.arr l) →
      extract_json_from_response J F raw = l) ∧
    (∀ o, J (mdTarget F raw) = some (PyJson.obj o) →
      extract_json_from_response J F raw = [PyJson.obj o]) ∧
    (∀ v, J (mdTarget F raw) = some v → (∀ l, v ≠ PyJson.arr l) →
      (∀ o, v ≠ PyJson.obj o) → extract_json_from_response J F raw = []) ∧
    (∀ i j, J (mdTarget F raw) = none → pyFind (mdTarget F raw) '[' = some i →
      pyRfind (mdTarget F raw) ']' = some j → i < j →
      extract_json_from_response J F raw =
        coerceParsed (J (pySlice (mdTarget F raw) i (j + 1)))) ∧
    (J (mdTarget F raw) = none →
      (∀ i j, pyFind (mdTarget F raw) '[' = some i →
        pyRfind (mdTarget F raw) ']' = some j → i < j →
        coerceParsed (J (pySlice (mdTarget F raw) i (j + 1))) = []) →
      rawObjectFallback J raw = [] →
      extract_json_from_response J F raw = []) := by
  refine ⟨?_, ?_, ?_, ?_, ?_⟩
  · intro l h
    simp [extract_json_from_response, h, coerceParsed]
  · intro o h
    simp [extract_json_from_response, h, coerceParsed]
  · intro v hv h1 h2
    cases v with
    | arr l => exact absurd rfl (h1 l)
    | obj o => exact absurd rfl (h2 o)
    | null => simp [extract_json_from_response, hv, coerceParsed]
    | bool b => simp [extract_json_from_response, hv, coerceParsed]
    | num n => simp [extract_json_from_response, hv, coerceParsed]
    | str s => simp [extract_json_from_response, hv, coerceParsed]
  · intro i j h hf hr hij
    simp [extract_json_from_response, h, hf, hr, hij]
  · intro h hb hraw
    simp only [extract_json_from_response, h]
    rcases hf : pyFind (mdTarget F raw) '[' with _ | i
    · simpa [hf] using hraw
    · rcases hr : pyRfind (mdTarget F raw) ']' with _ | j
      · simpa [hf, hr] using hraw
      · by_cases hij : i < j
        · simpa [hf, hr, hij] using hb i j hf hr hij
        · simpa [hf, hr, hij] using hraw

/-- Closed evaluation of C1 on concrete oracles: a direct array parse, a bare
object, and a non-object non-array parse. -/
theorem C1_extract_json_spec_witness :
    extract_json_from_response jsonOracle fenceOracle "[1]" = [PyJson.num 1] ∧
    extract_json_from_response jsonOracle fenceOracle "ob" = [PyJson.obj [("a", PyJson.null)]] ∧
    extract_json_from_response jsonOracle fenceOracle "tx" = [] := by
  refine ⟨(C1_extract_json_spec jsonOracle fenceOracle "[1]").1 [PyJson.num 1] rfl,
    (C1_extract_json_spec jsonOracle fenceOracle "ob").2.1 [("a", PyJson.null)] rfl,
    (C1_extract_json_spec jsonOracle fenceOracle "tx").2.2.1 (PyJson.str "t") rfl
      (fun l h => PyJson.noConfusion h) (fun o h => PyJson.noConfusion h)⟩

/-- A block of intents that all succeed (or are `"none"`) passes through the
dispatch loop, appending its results and calls and forcing the
`action_executed` flag exactly when a non-`"none"` intent occurred. -/
theorem dispatchLoop_append_ok (reg : List (String × RegEntry)) (run : RunOracle)
    (pre rest : List Intent) (res : List String) (ae : Bool) (cs : List Call)
    (h : allOk reg run pre) :
    dispatchLoop reg run (pre ++ rest) res ae cs =
      dispatchLoop reg run rest (res ++ (okTrace reg run pre).1)
        (ae || pre.any fun it => !(it.action == "none"))
        (cs ++ (okTrace reg run pre).2) := by
  induction pre generalizing res ae cs with
  | nil => simp [okTrace]
  | cons it l ih =>
    have hl : allOk reg run l := fun x hx => h x (List.mem_cons_of_mem _ hx)
    by_cases hn : it.action = "none"
    · simpa [dispatchLoop, okTrace, hn] using ih res ae cs hl
    · rcases h it (List.mem_cons_self it l) with hnone | ⟨e, s, he, hs⟩
      · exact absurd hnone hn
      · have hb : (it.action == "none") = false := beq_eq_false_iff_ne.mpr hn
        simp only [List.cons_append, dispatchLoop, if_neg hn, he, hs, List.append_eq]
        rw [ih _ _ _ hl]
        simp [okTrace, hn, he, hs, hb]

/-- A list of `"none"` intents leaves the dispatch loop state untouched. -/
theorem dispatchLoop_all_none (reg : List (String × RegEntry)) (run : RunOracle)
    (l : List Intent) (res : List String) (ae : Bool) (cs : List Call)
    (h : ∀ it ∈ l, it.action = "none") :
    dispatchLoop reg run l res ae cs = LoopOut.done res ae cs := by
  induction l with
  | nil => rfl
  | cons it l ih =>
    simp [dispatchLoop, h it (List.mem_cons_self it l),
      ih fun x hx => h x (List.mem_cons_of_mem _ hx)]

/-- With an empty registry the dispatch loop can never record a call. -/
theorem dispatchLoop_empty_registry (run : RunOracle) (l : List Intent)
    (res : List String) (ae : Bool) (cs : List Call) :
    loopCalls (dispatchLoop [] run l res ae cs) = cs := by
  induction l generalizing res ae cs with
  | nil => rfl
  | cons it l ih =>
    by_cases hn : it.action = "none"
    · simpa [dispatchLoop, hn] using ih res ae cs
    · simp [dispatchLoop, hn, loopCalls]

/-- Appending a user entry and popping it again is the identity. -/
theorem popIfLastUser_concat (h : List Msg) (u : String) :
    popIfLastUser (h ++ [⟨"user", u⟩]) = h := by
  simp [popIfLastUser]

/-- C4: when dispatch reaches an intent whose action is neither `"none"` nor
registered, `process_command` answers with exactly the unsupported-action
sentence (underscores replaced by spaces) and dispatches nothing after it:
the call trace is exactly the successful calls of the preceding block. -/
theorem C4_unsupported_action (reg : List (String × RegEntry)) (run : RunOracle)
    (gen : String → List Msg → String) (hist : List Msg) (user_text : String)
    (pre : List Intent) (bad : Intent) (post : List Intent)
    (hpre : allOk reg run pre) (hname : bad.action ≠ "none")
    (hmiss : reg.lookup bad.action = none) :
    (process_command reg run gen (Except.ok (pre ++ bad :: post)) hist user_text).response =
      "Sorry, I don't know how to '" ++ pyReplace bad.action '_' ' ' ++ "'." ∧
    (process_command reg run gen (Except.ok (pre ++ bad :: post)) hist user_text).module_calls =
      (okTrace reg run pre).2 ∧
    (process_command reg run gen (Except.ok (pre ++ bad :: post)) hist user_text).gen_calls = [] := by
  have hloop : dispatchLoop reg run (pre ++ bad :: post) [] false [] =
      LoopOut.early (unknownActionMsg bad.action) (okTrace reg run pre).2 := by
    rw [dispatchLoop_append_ok reg run pre (bad :: post) [] false [] hpre]
    simp [dispatchLoop, hname, hmiss]
  simp [process_command, hloop, unknownActionMsg]

/-- Closed instance of C4: a successful `greet` followed by the unknown
`fly_me` and another `greet`; only the first call is dispatched and the
answer names `fly me`. -/
theorem C4_unsupported_action_witness :
    (process_command regGreet runHi genChat
      (Except.ok [⟨"greet", []⟩, ⟨"fly_me", []⟩, ⟨"greet", []⟩]) [] "u").response =
      "Sorry, I don't know how to 'fly me'." ∧
    (process_command regGreet runHi genChat
      (Except.ok [⟨"greet", []⟩, ⟨"fly_me", []⟩, ⟨"greet", []⟩]) [] "u").module_calls =
      [(0, "do_greet", [])] := by
  have hall : allOk regGreet runHi [⟨"greet", []⟩] := by
    intro it hit
    simp only [List.mem_singleton] at hit
    subst hit
    exact Or.inr ⟨⟨0, "do_greet", "greets", "{}"⟩, "hi", by decide, rfl⟩
  have h := C4_unsupported_action regGreet runHi genChat [] "u"
    [⟨"greet", []⟩] ⟨"fly_me", []⟩ [⟨"greet", []⟩] hall (by decide) (by decide)
  exact ⟨h.1, h.2.1⟩

/-- C5: intents run strictly in list order and the first hard failure
(unsupported action, argument-mismatch `TypeError`, or any other module
exception) ends the turn.  In each case the whole `TurnOut` is pinned down:
the dispatched calls are exactly those of the successful preceding block (in
order, not rolled back) plus, for the two in-registry failures, the failing
call itself, and nothing from the remainder of the list runs. -/
theorem C5_order_and_abort (reg : List (String × RegEntry)) (run : RunOracle)
    (gen : String → List Msg → String) (hist : List Msg) (user_text : String)
    (pre : List Intent) (bad : Intent) (post : List Intent)
    (hpre : allOk reg run pre) (hname : bad.action ≠ "none") :
    (reg.lookup bad.action = none →
      process_command reg run gen (Except.ok (pre ++ bad :: post)) hist user_text =
        ⟨unknownActionMsg bad.action,
         (hist ++ [⟨"user", user_text⟩]) ++ [⟨"assistant", unknownActionMsg bad.action⟩],
         (okTrace reg run pre).2, []⟩) ∧
    (∀ e, reg.lookup bad.action = some e →
      run e.moduleId e.method_name (kwargsOf bad) = ExecOutcome.typeError →
      process_command reg run gen (Except.ok (pre ++ bad :: post)) hist user_text =
        ⟨typeErrorMsg bad.action,
         (hist ++ [⟨"user", user_text⟩]) ++ [⟨"assistant", typeErrorMsg bad.action⟩],
         (okTrace reg run pre).2 ++ [(e.moduleId, e.method_name, kwargsOf bad)], []⟩) ∧
    (∀ e, reg.lookup bad.action = some e →
      run e.moduleId e.method_name (kwargsOf bad) = ExecOutcome.exn →
      process_command reg run gen (Except.ok (pre ++ bad :: post)) hist user_text =
        ⟨execErrorMsg bad.action,
         (hist ++ [⟨"user", user_text⟩]) ++ [⟨"assistant", execErrorMsg bad.action⟩],
         (okTrace reg run pre).2 ++ [(e.moduleId, e.method_name, kwargsOf bad)], []⟩) := by
  refine ⟨?_, ?_, ?_⟩
  · intro hmiss
    have hloop : dispatchLoop reg run (pre ++ bad :: post) [] false [] =
        LoopOut.early (unknownActionMsg bad.action) (okTrace reg run pre).2 := by
      rw [dispatchLoop_append_ok reg run pre (bad :: post) [] false [] hpre]
      simp [dispatchLoop, hname, hmiss]
    simp [process_command, hloop]
  · intro e he hr
    have hloop : dispatchLoop reg run (pre ++ bad :: post) [] false [] =
        LoopOut.early (typeErrorMsg bad.action)
          ((okTrace reg run pre).2 ++ [(e.moduleId, e.method_name, kwargsOf bad)]) := by
      rw [dispatchLoop_append_ok reg run pre (bad :: post) [] false [] hpre]
      simp [dispatchLoop, hname, he, hr]
    simp [process_command, hloop]
  · intro e he hr
    have hloop : dispatchLoop reg run (pre ++ bad :: post) [] false [] =
        LoopOut.early (execErrorMsg bad.action)
          ((okTrace reg run pre).2 ++ [(e.moduleId, e.method_name, kwargsOf bad)]) := by
      rw [dispatchLoop_append_ok reg run pre (bad :: post) [] false [] hpre]
      simp [dispatchLoop, hname, he, hr]
    simp [process_command, hloop]

/-- Closed instance of C5, the claim's two-intent scenario: the first intent
succeeds (its call is recorded and kept), the second names an unsupported
action, and the returned text is the unsupported-action message. -/
theorem C5_order_and_abort_witness :
    process_command regGreet runHi genChat
      (Except.ok [⟨"greet", []⟩, ⟨"fly_me", []⟩]) [] "u" =
      ⟨"Sorry, I don't know how to 'fly me'.",
       [⟨"user", "u"⟩, ⟨"assistant", "Sorry, I don't know how to 'fly me'."⟩],
       [(0, "do_greet", [])], []⟩ := by
  have hall : allOk regGreet runHi [⟨"greet", []⟩] := by
    intro it hit
    simp only [List.mem_singleton] at hit
    subst hit
    exact Or.inr ⟨⟨0, "do_greet", "greets", "{}"⟩, "hi", by decide, rfl⟩
  have h := (C5_order_and_abort regGreet runHi genChat [] "u"
    [⟨"greet", []⟩] ⟨"fly_me", []⟩ [] hall (by decide)).1 (by decide)
  exact h.trans (by decide)

/-- C6: an intent list consisting solely of `"none"` entries (the empty list
included) makes `process_command` call the conversational generator exactly
once with the full history (the user turn appended) and no module method,
returning the generator's reply; conversely a completed dispatch loop with a
non-empty result list returns the newline-join of the results and never
calls the generator. -/
theorem C6_chat_fallback_vs_results (reg : List (String × RegEntry)) (run : RunOracle)
    (gen : String → List Msg → String) (hist : List Msg) (user_text : String)
    (intents : List Intent) :
    ((∀ it ∈ intents, it.action = "none") →
      process_command reg run gen (Except.ok intents) hist user_text =
        ⟨gen user_text (hist ++ [⟨"user", user_text⟩]),
         (hist ++ [⟨"user", user_text⟩]) ++
           [⟨"assistant", gen user_text (hist ++ [⟨"user", user_text⟩])⟩],
         [], [(user_text, hist ++ [⟨"user", user_text⟩])]⟩) ∧
    (∀ results ae calls,
      dispatchLoop reg run intents [] false [] = LoopOut.done results ae calls →
      results ≠ [] →
      (process_command reg run gen (Except.ok intents) hist user_text).response =
        String.intercalate "\n" results ∧
      (process_command reg run gen (Except.ok intents) hist user_text).gen_calls = []) := by
  constructor
  · intro hnone
    have hloop := dispatchLoop_all_none reg run intents [] false [] hnone
    simp [process_command, hloop]
  · intro results ae calls hloop hnz
    simp [process_command, hloop, hnz]

/-- Closed instance of C6: an all-`"none"` turn goes to the generator alone;
a successful `greet` turn joins its single result and skips the generator. -/
theorem C6_chat_fallback_vs_results_witness :
    process_command regGreet runHi genChat
      (Except.ok [⟨"none", []⟩, ⟨"none", []⟩]) [] "hello" =
      ⟨"CHAT", [⟨"user", "hello"⟩, ⟨"assistant", "CHAT"⟩], [],
       [("hello", [⟨"user", "hello"⟩])]⟩ ∧
    (process_command regGreet runHi genChat
      (Except.ok [⟨"greet", []⟩]) [] "hello").response = "hi" ∧
    (process_command regGreet runHi genChat
      (Except.ok [⟨"greet", []⟩]) [] "hello").gen_calls = [] := by
  constructor
  · have h := (C6_chat_fallback_vs_results regGreet runHi genChat [] "hello"
      [⟨"none", []⟩, ⟨"none", []⟩]).1 (by decide)
    rw [h]
    decide
  · have h := (C6_chat_fallback_vs_results regGreet runHi genChat [] "hello"
      [⟨"greet", []⟩]).2 ["hi"] true [(0, "do_greet", [])] (by decide) (by decide)
    exact ⟨h.1, h.2⟩

/-- C7 (amended): the prior history is always preserved as a prefix; a turn
whose intent parse succeeds appends exactly one user entry and one assistant
entry (the assistant entry being the returned response), while a turn whose
intent parse raises pops the user entry it appended and leaves the history
unchanged; `clear_conversation_history` empties it. -/
theorem C7_history_discipline (reg : List (String × RegEntry)) (run : RunOracle)
    (gen : String → List Msg → String) (parsed : Except Unit (List Intent))
    (hist : List Msg) (user_text : String) :
    (process_command reg run gen parsed hist user_text).new_history =
      (match parsed with
       | Except.error _ => hist
       | Except.ok _ =>
         (hist ++ [⟨"user", user_text⟩]) ++
           [⟨"assistant", (process_command reg run gen parsed hist user_text).response⟩]) ∧
    clear_conversation_history = ([] : List Msg) := by
  refine ⟨?_, rfl⟩
  cases parsed with
  | error e => simp [process_command, popIfLastUser_concat]
  | ok intents =>
    rcases hl : dispatchLoop reg run intents [] false [] with ⟨results, ae, calls⟩ | ⟨resp, calls⟩
    · simp only [process_command, hl]
      by_cases hz : results ≠ []
      · simp [hz]
      · by_cases hae : ae <;> simp [hz, hae]
    · simp [process_command, hl]

/-- Concrete refutation of C7 as stated: with a failing intent parse the
turn appends no user entry at all (the code pops it again), so it is not the
case that every `process_command` call appends one user entry. -/
theorem C7_history_counterexample :
    (process_command regGreet runHi genChat (Except.error ())
      [⟨"assistant", "prev"⟩] "hi").new_history = [⟨"assistant", "prev"⟩] ∧
    ¬ ∃ rest : List Msg,
      (process_command regGreet runHi genChat (Except.error ())
        [⟨"assistant", "prev"⟩] "hi").new_history =
        ⟨"assistant", "prev"⟩ :: ⟨"user", "hi"⟩ :: rest := by
  constructor
  · decide
  · rintro ⟨rest, hr⟩
    rw [show (process_command regGreet runHi genChat (Except.error ())
      [⟨"assistant", "prev"⟩] "hi").new_history = [⟨"assistant", "prev"⟩] by decide] at hr
    simp at hr

/-- C2, evaluated at the failing input: two modules loaded in order, both
declaring action `"foo"`.  The merged registry has one entry per distinct
action name (size part of the claim holds), but the handler bound to `"foo"`
is the second-loaded module's, not the first's: the dict assignment in
`load_automation_modules` runs outside the duplicate-warning branch, so the
last registrant wins, contradicting the warning text and the claim. -/
theorem C2_duplicate_last_wins :
    (load_automation_modules
      [Except.ok ⟨0, "Module A", [("foo", ⟨"foo_a", "descA", "exA"⟩)]⟩,
       Except.ok ⟨1, "Module B", [("foo", ⟨"foo_b", "descB", "exB"⟩)]⟩]).2 =
      [("foo", ⟨1, "foo_b", "descB", "exB"⟩)] ∧
    (⟨1, "foo_b", "descB", "exB"⟩ : RegEntry) ≠ ⟨0, "foo_a", "descA", "exA"⟩ ∧
    (load_automation_modules
      [Except.ok ⟨0, "Module A", [("foo", ⟨"foo_a", "descA", "exA"⟩)]⟩,
       Except.ok ⟨1, "Module B", [("foo", ⟨"foo_b", "descB", "exB"⟩)]⟩]).2.length = 1 := by
  exact ⟨by decide, by decide, by decide⟩

/-- C3, evaluated at the failing input: on any transport/parse failure both
provider adapters return the fallback `[{"action": "None"}]` with a capital
N, which is not the reserved `"none"` action; fed to the dispatcher it is
treated as an unsupported action and answered with a user-visible error
instead of the chat fallback.  The apology fallback of `generate_response`
does hold. -/
theorem C3_fallback_intent_capital_n :
    awan_parse_intents (fun _ => none) (fun _ => none) (Except.error ()) =
      [PyJson.obj [("action", PyJson.str "None")]] ∧
    novita_parse_intents (fun _ => none) (fun _ => none) (Except.error ()) =
      [PyJson.obj [("action", PyJson.str "None")]] ∧
    awan_generate_response (Except.error ()) =
      "I apologize, but I'm having trouble generating a response right now." ∧
    novita_generate_response (Except.error ()) =
      "I apologize, but I'm having trouble generating a response right now." ∧
    (process_command [] (fun _ _ _ => ExecOutcome.exn) genChat
      (Except.ok [⟨"None", []⟩]) [] "hello").response =
      "Sorry, I don't know how to 'None'." ∧
    (process_command [] (fun _ _ _ => ExecOutcome.exn) genChat
      (Except.ok [⟨"None", []⟩]) [] "hello").gen_calls = [] ∧
    "None" ≠ "none" := by
  exact ⟨rfl, rfl, rfl, rfl, by decide, by decide, by decide⟩

/-- In the last-filename loop, a block of intents none of which names one of
the three file actions leaves `last_filename` untouched, whatever the
outcomes. -/
theorem fileLoop_lf_frame (reg : List (String × RegEntry)) (run : RunOracle)
    (l : List Intent) (res : List String) (lf : Option String) (cs : List Call)
    (h : ∀ it ∈ l, it.action ≠ "create_file" ∧ it.action ≠ "write_file" ∧
      it.action ≠ "delete_file") :
    floopLf (fileDispatchLoop reg run l res lf cs) = lf := by
  induction l generalizing res cs with
  | nil => rfl
  | cons it l ih =>
    obtain ⟨h1, h2, h3⟩ := h it (List.mem_cons_self it l)
    have hl : ∀ x ∈ l, x.action ≠ "create_file" ∧ x.action ≠ "write_file" ∧
        x.action ≠ "delete_file" := fun x hx => h x (List.mem_cons_of_mem _ hx)
    by_cases hn : it.action = "none"
    · simpa [fileDispatchLoop, hn] using ih res cs hl
    · simp only [fileDispatchLoop, if_neg hn]
      rcases he : List.lookup it.action reg with _ | e
      · simp [floopLf]
      · rcases hr : run e.moduleId e.method_name (kwargsOf it) with r | _ | _
        · have hupd : update_last_filename it.action (kwargsOf it) r lf = lf := by
            simp [update_last_filename, h1, h2, h3]
          simpa [hr, hupd] using ih _ _ hl
        · simp [floopLf, hr]
        · simp [floopLf, hr]

/-- C8: the `last_filename` pointer changes only through the
create/write/delete file actions and only when the result string carries the
matching sentinel substring: a sentinel-bearing create or write sets it to
the intent's `filename` argument, a sentinel-bearing delete resets it to
`none` exactly when the deleted filename equals the current pointer, and any
other dispatched action — and any whole block free of the three file actions
— leaves it unchanged. -/
theorem C8_last_filename_protocol (act : String) (kw : List (String × String))
    (r : String) (lf : Option String) :
    (act ≠ "create_file" → act ≠ "write_file" → act ≠ "delete_file" →
      update_last_filename act kw r lf = lf) ∧
    (¬ pyContains r "File created" → update_last_filename "create_file" kw r lf = lf) ∧
    (¬ pyContains r "File written" → update_last_filename "write_file" kw r lf = lf) ∧
    (¬ pyContains r "File deleted" → update_last_filename "delete_file" kw r lf = lf) ∧
    (pyContains r "File created" →
      update_last_filename "create_file" kw r lf = kw.lookup "filename") ∧
    (pyContains r "File written" →
      update_last_filename "write_file" kw r lf = kw.lookup "filename") ∧
    (pyContains r "File deleted" → lf = kw.lookup "filename" →
      update_last_filename "delete_file" kw r lf = none) ∧
    (pyContains r "File deleted" → lf ≠ kw.lookup "filename" →
      update_last_filename "delete_file" kw r lf = lf) ∧
    (∀ reg run intents res cs,
      (∀ it ∈ intents, it.action ≠ "create_file" ∧ it.action ≠ "write_file" ∧
        it.action ≠ "delete_file") →
      floopLf (fileDispatchLoop reg run intents res lf cs) = lf) := by
  refine ⟨?_, ?_, ?_, ?_, ?_, ?_, ?_, ?_, ?_⟩
  · intro h1 h2 h3
    simp [update_last_filename, h1, h2, h3]
  · intro hs
    simp [update_last_filename, hs]
  · intro hs
    simp [update_last_filename, hs]
  · intro hs
    simp [update_last_filename, hs]
  · intro hs
    simp [update_last_filename, hs]
  · intro hs
    simp [update_last_filename, hs]
  · intro hs heq
    simp [update_last_filename, hs, heq]
  · intro hs hne
    simp [update_last_filename, hs, hne]
  · intro reg run intents res cs h
    exact fileLoop_lf_frame reg run intents res lf cs h

/-- Closed instances of C8: a non-file action leaves the pointer alone, a
sentinel-bearing create sets it, a create without the sentinel does not, and
a sentinel-bearing delete of the pointed-to file clears it. -/
theorem C8_last_filename_protocol_witness :
    update_last_filename "open_file" [] "ok" (some "a.txt") = some "a.txt" ∧
    update_last_filename "create_file" [("filename", "b.txt")]
      "File created: b.txt" (some "a.txt") = some "b.txt" ∧
    update_last_filename "create_file" [("filename", "b.txt")]
      "Error: permission denied" (some "a.txt") = some "a.txt" ∧
    update_last_filename "delete_file" [("filename", "a.txt")]
      "File deleted: a.txt" (some "a.txt") = none := by
  refine ⟨(C8_last_filename_protocol "open_file" [] "ok" (some "a.txt")).1
      (by decide) (by decide) (by decide),
    (C8_last_filename_protocol "create_file" [("filename", "b.txt")]
      "File created: b.txt" (some "a.txt")).2.2.2.2.1 (by decide),
    (C8_last_filename_protocol "create_file" [("filename", "b.txt")]
      "Error: permission denied" (some "a.txt")).2.1 (by decide),
    (C8_last_filename_protocol "delete_file" [("filename", "a.txt")]
      "File deleted: a.txt" (some "a.txt")).2.2.2.2.2.2.1 (by decide) (by decide)⟩

/-- C9 (amended): a module whose import or instantiation fails is simply
skipped — the registry and module list are the same as if its path had not
been configured, so every other module still registers; and with zero
modules loaded `process_command` still works in chat-only mode: no module
method is ever dispatched, and every turn whose intents are all `"none"` (or
empty) falls through to conversational generation. -/
theorem C9_load_tolerance_chat_only :
    (∀ xs ys : List (Except Unit ModuleSpec),
      load_automation_modules (xs ++ Except.error () :: ys) =
        load_automation_modules (xs ++ ys)) ∧
    (∀ (run : RunOracle) (gen : String → List Msg → String) (hist : List Msg)
      (user_text : String) (intents : List Intent),
      (process_command [] run gen (Except.ok intents) hist user_text).module_calls = [] ∧
      ((∀ it ∈ intents, it.action = "none") →
        (process_command [] run gen (Except.ok intents) hist user_text).response =
          gen user_text (hist ++ [⟨"user", user_text⟩]))) := by
  constructor
  · intro xs ys
    simp [load_automation_modules, List.foldl_append]
  · intro run gen hist user_text intents
    constructor
    · have hc := dispatchLoop_empty_registry run intents [] false []
      rcases hl : dispatchLoop [] run intents [] false [] with ⟨results, ae, calls⟩ | ⟨resp, calls⟩
      · rw [hl] at hc
        simp only [loopCalls] at hc
        simp only [process_command, hl]
        by_cases hz : results ≠ []
        · simp [hz, hc]
        · by_cases hae : ae <;> simp [hz, hae, hc]
      · rw [hl] at hc
        simp only [loopCalls] at hc
        simp [process_command, hl, hc]
    · intro hnone
      have hloop := dispatchLoop_all_none [] run intents [] false [] hnone
      simp [process_command, hloop]

/-- Closed instance of C9: a failing load contributes nothing, an empty
registry dispatches nothing, and an all-`"none"` turn still chats. -/
theorem C9_load_tolerance_chat_only_witness :
    load_automation_modules [Except.error ()] = load_automation_modules [] ∧
    (process_command [] runHi genChat (Except.ok [⟨"foo", []⟩]) [] "u").module_calls = [] ∧
    (process_command [] runHi genChat (Except.ok [⟨"none", []⟩]) [] "u").response = "CHAT" := by
  refine ⟨?_, ?_, ?_⟩
  · simpa using C9_load_tolerance_chat_only.1 [] []
  · exact (C9_load_tolerance_chat_only.2 runHi genChat [] "u" [⟨"foo", []⟩]).1
  · exact (C9_load_tolerance_chat_only.2 runHi genChat [] "u" [⟨"none", []⟩]).2 (by decide)

/-- Concrete refutation of C9's parenthetical as stated: with zero modules
loaded an input parsed to an unknown action does not fall through to
conversational generation — the generator is never called and the reply is
the unsupported-action message. -/
theorem C9_chat_only_counterexample :
    (process_command [] runHi genChat (Except.ok [⟨"foo", []⟩]) [] "u").gen_calls = [] ∧
    (process_command [] runHi genChat (Except.ok [⟨"foo", []⟩]) [] "u").response =
      "Sorry, I don't know how to 'foo'." := by
  exact ⟨by decide, by decide⟩

/-- C10: in the last-filename variant, a first intent whose action is
`clarify` or `clarify_file` makes `process_command` return that intent's
`prompt` field — or the fixed default question when the field is absent —
immediately: no module method is dispatched, no other intent runs, the
generator is not called and `last_filename` is untouched. -/
theorem C10_clarify_short_circuit (reg : List (String × RegEntry)) (run : RunOracle)
    (gen : String → String) (lf : Option String) (user_text : String)
    (i0 : Intent) (rest : List Intent) :
    (i0.action = "clarify" →
      (∀ p, i0.params.lookup "prompt" = some p →
        file_process_command reg run gen (Except.ok (i0 :: rest)) lf user_text =
          ⟨p, lf, [], []⟩) ∧
      (i0.params.lookup "prompt" = none →
        file_process_command reg run gen (Except.ok (i0 :: rest)) lf user_text =
          ⟨"Could you clarify your intent?", lf, [], []⟩)) ∧
    (i0.action = "clarify_file" →
      (∀ p, i0.params.lookup "prompt" = some p →
        file_process_command reg run gen (Except.ok (i0 :: rest)) lf user_text =
          ⟨p, lf, [], []⟩) ∧
      (i0.params.lookup "prompt" = none →
        file_process_command reg run gen (Except.ok (i0 :: rest)) lf user_text =
          ⟨"Which file did you mean? Please specify the filename.", lf, [], []⟩)) := by
  constructor
  · intro ha
    constructor
    · intro p hp
      simp [file_process_command, ha, getParam, hp]
    · intro hp
      simp [file_process_command, ha, getParam, hp]
  · intro ha
    constructor
    · intro p hp
      simp [file_process_command, ha, getParam, hp]
    · intro hp
      simp [file_process_command, ha, getParam, hp]

/-- Closed instances of C10: a clarify intent with a prompt (followed by an
intent that must not run), and a clarify_file intent without one. -/
theorem C10_clarify_short_circuit_witness :
    file_process_command regGreet runHi (fun _ => "CHAT")
      (Except.ok [⟨"clarify", [("prompt", "Which one?")]⟩, ⟨"greet", []⟩])
      (some "a.txt") "u" = ⟨"Which one?", some "a.txt", [], []⟩ ∧
    file_process_command regGreet runHi (fun _ => "CHAT")
      (Except.ok [⟨"clarify_file", []⟩]) none "u" =
      ⟨"Which file did you mean? Please specify the filename.", none, [], []⟩ := by
  exact ⟨((C10_clarify_short_circuit regGreet runHi (fun _ => "CHAT") (some "a.txt") "u"
      ⟨"clarify", [("prompt", "Which one?")]⟩ [⟨"greet", []⟩]).1 (by decide)).1
      "Which one?" (by decide),
    ((C10_clarify_short_circuit regGreet runHi (fun _ => "CHAT") none "u"
      ⟨"clarify_file", []⟩ []).2 (by decide)).2 (by decide)⟩

end PDA
